import Mathlib

/-!
Verification of the `cow_arc` crate (`src/lib.rs`): a copy-on-write
shared-value container `CowArc<T>` wrapping an `Arc<T>`.

The embedding makes allocation identity explicit: the world of `Arc`
allocations is a heap, modelled as a list of values (`Heap T`); the
address of an allocation is its index in that list, and allocating
(`Arc::new`) appends to the list, yielding a fresh address.  A `CowArc`
handle is the address of the allocation its `inner: Arc<T>` points to.
Every operation is translated directly from the Rust source:

* `CowArc::new`   allocates (`Arc::new(val)`) and wraps the address;
* `Clone::clone`  copies the handle (`self.inner.clone()` is a
  reference-count increment: same address, no allocation, so the heap
  is returned unchanged);
* `Deref::deref`  reads the allocation the handle points to;
* `set_val`       allocates a fresh `Arc` for the new value and rebinds
  the handle (`self.inner = Arc::new(val)`);
* `update_val`    clones the current value out of the allocation, runs
  the caller's mutator on that private copy, then allocates and rebinds
  (`let mut v = self.inner.deref().clone(); f(&mut v);
  self.inner = Arc::new(v)`).

`update_val` is embedded generically in an effect `M` (`update_valM`),
because two claims are about the mutator's effects: `update_val` itself
is the pure instance, `update_valE` is the instance where the mutator
may fail (a Rust panic/unwind: the rebind is never reached, the handle
and heap stay as they were, the error propagates), and the counting
instance records each value the mutator is invoked on.
-/

namespace CowArcVerif

/-- The store of live `Arc<T>` allocations: index = address. -/
abbrev Heap (T : Type) := List T

/-- A `CowArc<T>` handle: the address of the allocation held by its
`inner: Arc<T>` field.  Identity-equality of handles (Rust
`std::ptr::eq(a.deref(), b.deref())`) is equality of addresses. -/
structure CowArc where
  addr : Nat
  deriving DecidableEq, Repr

/-- `CowArc::new(val)`: `Arc::new` allocates a fresh cell holding `val`
and the handle is bound to it. -/
def new (heap : Heap T) (val : T) : Heap T × CowArc :=
  (heap ++ [val], ⟨heap.length⟩)

/-- `<CowArc as Clone>::clone`: `self.inner.clone()` only increments the
reference count of the existing allocation — same address, the heap of
allocations is untouched. -/
def clone (heap : Heap T) (a : CowArc) : Heap T × CowArc :=
  (heap, a)

/-- `<CowArc as Deref>::deref`: read the value stored in the allocation
the handle points to (`self.inner.deref()`). -/
def deref (heap : Heap T) (a : CowArc) : Option T :=
  heap[a.addr]?

/-- `deref` as the full state-passing operation: it takes `&self`, so
the heap and the handle come back exactly as they went in, together with
the read value. -/
def read (heap : Heap T) (a : CowArc) : (Heap T × CowArc) × Option T :=
  ((heap, a), deref heap a)

/-- `CowArc::set_val`: `self.inner = Arc::new(val)` — allocate a fresh
cell for `val` and rebind the handle to it, unconditionally. -/
def set_val (heap : Heap T) (_a : CowArc) (val : T) : Heap T × CowArc :=
  (heap ++ [val], ⟨heap.length⟩)

/-- `CowArc::update_val`, generic in the mutator's effect `M`:
`let mut v = self.inner.deref().clone()` reads the current value into a
private copy, the mutator transforms it inside `M`, and only then
`self.inner = Arc::new(v)` allocates and rebinds.  (The `none` branch is
unreachable for a handle created by `new`: every handle points at a live
allocation.) -/
def update_valM {M : Type → Type} [Monad M] (heap : Heap T) (a : CowArc)
    (f : T → M T) : M (Heap T × CowArc) :=
  match deref heap a with
  | some v => do
      let v2 ← f v
      pure (heap ++ [v2], ⟨heap.length⟩)
  | none => pure (heap, a)

/-- `CowArc::update_val` with a pure mutator (the Rust signature:
`f: FnOnce(&mut T)` as a value transformer). -/
def update_val (heap : Heap T) (a : CowArc) (f : T → T) : Heap T × CowArc :=
  match deref heap a with
  | some v => (heap ++ [f v], ⟨heap.length⟩)
  | none => (heap, a)

/-- `CowArc::update_val` with a mutator that may fail (panic/unwind in
Rust).  The rebind `self.inner = Arc::new(v)` is the last statement of
the method body, so on failure it is never executed: the heap and the
handle are exactly the pre-call ones and the error propagates unchanged
as the second component. -/
def update_valE {E : Type} (heap : Heap T) (a : CowArc) (f : T → Except E T) :
    (Heap T × CowArc) × Option E :=
  match deref heap a with
  | some v =>
    match f v with
    | .ok v2 => ((heap ++ [v2], ⟨heap.length⟩), none)
    | .error e => ((heap, a), some e)
  | none => ((heap, a), none)

/-- A mutator instrumented to log every value it is invoked on, while
computing `g` on it: used to count invocations of the mutator made by
`update_val`. -/
def loggingMutator (g : T → T) : T → StateM (List T) T :=
  fun t log => (g t, log ++ [t])

/-- Value-equality of two handles: `PartialEq` on `CowArc` goes through
`Deref`, comparing the pointed-to values, never the addresses. -/
def valueEq (heap : Heap T) (a b : CowArc) : Prop :=
  deref heap a = deref heap b

/-- A handle is valid when its address is a live allocation.  Every
handle produced by `new`, `clone`, `set_val` or `update_val` is valid. -/
def Valid (heap : Heap T) (a : CowArc) : Prop :=
  a.addr < heap.length

/-- C1: after `a = CowArc::new(v); b = a.clone(); b.set_val(v2)` with
`v2 ≠ v`, the handles `a` and `b` point at different allocations, `a`
still reads as `v` and `b` reads as `v2`. -/
theorem replace_diverges {T : Type} (heap : Heap T) (v v2 : T) (hne : v2 ≠ v)
    (h1 : Heap T) (a : CowArc) (h2 : Heap T) (b : CowArc)
    (h3 : Heap T) (b2 : CowArc)
    (e1 : new heap v = (h1, a)) (e2 : clone h1 a = (h2, b))
    (e3 : set_val h2 b v2 = (h3, b2)) :
    b2 ≠ a ∧ deref h3 a = some v ∧ deref h3 b2 = some v2 := by
  obtain ⟨rfl, rfl⟩ := Prod.mk.injEq .. ▸ e1
  obtain ⟨rfl, rfl⟩ := Prod.mk.injEq .. ▸ e2
  obtain ⟨rfl, rfl⟩ := Prod.mk.injEq .. ▸ e3
  refine ⟨?_, ?_, ?_⟩
  · intro h
    have := congrArg CowArc.addr h
    simp at this
  · simp only [deref]
    rw [List.getElem?_append_left (by simp)]
    simpa using List.getElem?_concat_length heap v
  · simp only [deref]
    simpa using List.getElem?_concat_length (heap ++ [v]) v2

/-- C1 witness: the divergence scenario at `v = 0`, `v2 = 1` on the
empty heap. -/
theorem replace_diverges_witness :
    CowArc.mk 1 ≠ CowArc.mk 0 ∧
      deref [(0 : Nat), 1] ⟨0⟩ = some 0 ∧ deref [(0 : Nat), 1] ⟨1⟩ = some 1 :=
  replace_diverges [] 0 1 (by decide) [0] ⟨0⟩ [0] ⟨0⟩ [0, 1] ⟨1⟩ rfl rfl rfl

/-- C2: after `a = CowArc::new(v); b = a.clone(); b.update_val(f)`, the
handles `a` and `b` point at different allocations, `a` still reads as
`v` and `b` reads as `f v`. -/
theorem modify_diverges {T : Type} (heap : Heap T) (v : T) (f : T → T)
    (h1 : Heap T) (a : CowArc) (h2 : Heap T) (b : CowArc)
    (h3 : Heap T) (b2 : CowArc)
    (e1 : new heap v = (h1, a)) (e2 : clone h1 a = (h2, b))
    (e3 : update_val h2 b f = (h3, b2)) :
    b2 ≠ a ∧ deref h3 a = some v ∧ deref h3 b2 = some (f v) := by
  obtain ⟨rfl, rfl⟩ := Prod.mk.injEq .. ▸ e1
  obtain ⟨rfl, rfl⟩ := Prod.mk.injEq .. ▸ e2
  have hv : deref (heap ++ [v]) ⟨heap.length⟩ = some v := by
    simpa [deref] using List.getElem?_concat_length heap v
  rw [update_val, hv] at e3
  obtain ⟨rfl, rfl⟩ := Prod.mk.injEq .. ▸ e3
  refine ⟨?_, ?_, ?_⟩
  · intro h
    have := congrArg CowArc.addr h
    simp at this
  · simp only [deref]
    rw [List.getElem?_append_left (by simp)]
    simpa using List.getElem?_concat_length heap v
  · simp only [deref]
    simpa using List.getElem?_concat_length (heap ++ [v]) (f v)

/-- C2 witness: the modify-divergence scenario at `v = 2`,
`f = (· + 1)` on the empty heap. -/
theorem modify_diverges_witness :
    CowArc.mk 1 ≠ CowArc.mk 0 ∧
      deref [(2 : Nat), 3] ⟨0⟩ = some 2 ∧ deref [(2 : Nat), 3] ⟨1⟩ = some 3 :=
  modify_diverges [] 2 (· + 1) [2] ⟨0⟩ [2] ⟨0⟩ [2, 3] ⟨1⟩ rfl rfl (by decide)

/-- C3: if the mutator fails during `update_val`, the handle is still
bound to its pre-call allocation, it reads its pre-call value, and the
mutator's error is propagated to the caller unchanged. -/
theorem modify_failure_atomic {T E : Type} (heap : Heap T) (a : CowArc)
    (f : T → Except E T) (v : T) (e : E)
    (hv : deref heap a = some v) (hf : f v = .error e) :
    update_valE heap a f = ((heap, a), some e) ∧
      deref (update_valE heap a f).1.1 (update_valE heap a f).1.2 = some v := by
  have h : update_valE heap a f = ((heap, a), some e) := by
    simp only [update_valE, hv, hf]
  exact ⟨h, by rw [h]; exact hv⟩

/-- C3 witness: a mutator that always fails with error `7` on a handle
reading `5` leaves heap and handle untouched and surfaces `7`. -/
theorem modify_failure_atomic_witness :
    update_valE [(5 : Nat)] ⟨0⟩ (fun _ => .error (7 : Nat)) = (([5], ⟨0⟩), some 7) ∧
      deref (update_valE [(5 : Nat)] ⟨0⟩ (fun _ => .error (7 : Nat))).1.1
        (update_valE [(5 : Nat)] ⟨0⟩ (fun _ => .error (7 : Nat))).1.2 = some 5 :=
  modify_failure_atomic [5] ⟨0⟩ (fun _ => .error 7) 5 7 rfl rfl

/-- C4: `clone` always yields a handle identity-equal to its source and
never allocates (the heap comes back unchanged); and after the scenario
`a = new v; b = a.clone(); b.set_val(v2); c = b.clone()`, the fresh
duplicate `c` shares identity with the diverged handle `b`, not with the
original `a`. -/
theorem clone_shares_identity {T : Type} (heap : Heap T) (v v2 : T)
    (h1 : Heap T) (a : CowArc) (h2 : Heap T) (b : CowArc)
    (h3 : Heap T) (b2 : CowArc) (h4 : Heap T) (c : CowArc)
    (e1 : new heap v = (h1, a)) (e2 : clone h1 a = (h2, b))
    (e3 : set_val h2 b v2 = (h3, b2)) (e4 : clone h3 b2 = (h4, c)) :
    (∀ (hp : Heap T) (x : CowArc), clone hp x = (hp, x)) ∧
      c = b2 ∧ h4 = h3 ∧ c ≠ a := by
  obtain ⟨rfl, rfl⟩ := Prod.mk.injEq .. ▸ e1
  obtain ⟨rfl, rfl⟩ := Prod.mk.injEq .. ▸ e2
  obtain ⟨rfl, rfl⟩ := Prod.mk.injEq .. ▸ e3
  obtain ⟨rfl, rfl⟩ := Prod.mk.injEq .. ▸ e4
  refine ⟨fun hp x => rfl, rfl, rfl, ?_⟩
  intro h
  have := congrArg CowArc.addr h
  simp at this

/-- C4 witness: the scenario at `v = 0`, `v2 = 1` on the empty heap. -/
theorem clone_shares_identity_witness :
    (∀ (hp : Heap Nat) (x : CowArc), clone hp x = (hp, x)) ∧
      CowArc.mk 1 = CowArc.mk 1 ∧ ([(0 : Nat), 1] : Heap Nat) = [0, 1] ∧
      CowArc.mk 1 ≠ CowArc.mk 0 :=
  clone_shares_identity [] 0 1 [0] ⟨0⟩ [0] ⟨0⟩ [0, 1] ⟨1⟩ [0, 1] ⟨1⟩
    rfl rfl rfl rfl

/-- C5: when the mutator terminates, `update_val f` is the same state
transformation as `set_val (f v)` for `v` the handle's current value:
the resulting heap and handle coincide, so every later read does too. -/
theorem modify_refines_replace {T : Type} (heap : Heap T) (a : CowArc)
    (f : T → T) (v : T) (hv : deref heap a = some v) :
    update_val heap a f = set_val heap a (f v) := by
  rw [update_val, hv]
  rfl

/-- C5 witness: `update_val (· + 1)` on a handle reading `4` equals
`set_val 5` there. -/
theorem modify_refines_replace_witness :
    update_val [(4 : Nat)] ⟨0⟩ (· + 1) = set_val [(4 : Nat)] ⟨0⟩ 5 :=
  modify_refines_replace [4] ⟨0⟩ (· + 1) 4 rfl

/-- C6: `set_val` and `update_val` always rebind to a brand-new
allocation — for any valid handle, any replacement value (including the
current one) and any mutator (including the identity), the handle's
address after the call differs from its address before. -/
theorem mutation_always_reallocates {T : Type} (heap : Heap T) (a : CowArc)
    (v : T) (f : T → T) (hval : Valid heap a) :
    (set_val heap a v).2 ≠ a ∧ (update_val heap a f).2 ≠ a := by
  have haddr : heap.length ≠ a.addr := Nat.ne_of_gt hval
  constructor
  · intro h
    exact haddr (congrArg CowArc.addr h)
  · have hw : deref heap a = some (heap.get ⟨a.addr, hval⟩) := by
      simpa [deref] using List.getElem?_eq_getElem hval
    rw [update_val, hw]
    intro h
    exact haddr (congrArg CowArc.addr h)

/-- C6 witness: replacing the value `3` by itself, and applying the
identity mutator, both move a handle reading `3` to a new address. -/
theorem mutation_always_reallocates_witness :
    (set_val [(3 : Nat)] ⟨0⟩ 3).2 ≠ CowArc.mk 0 ∧
      (update_val [(3 : Nat)] ⟨0⟩ id).2 ≠ CowArc.mk 0 :=
  mutation_always_reallocates [3] ⟨0⟩ 3 id (by simp [Valid])

/-- C7: value-equality compares the pointed-to values and is independent
of allocation identity: two handles constructed independently from the
same value are value-equal yet never identity-equal, and after the two
handles are independently mutated to the same value `w` they are again
value-equal while backed by different allocations. -/
theorem value_eq_independent_of_identity {T : Type} (heap : Heap T) (v w : T)
    (h1 : Heap T) (a : CowArc) (h2 : Heap T) (b : CowArc)
    (h3 : Heap T) (a2 : CowArc) (h4 : Heap T) (b2 : CowArc)
    (e1 : new heap v = (h1, a)) (e2 : new h1 v = (h2, b))
    (e3 : set_val h2 a w = (h3, a2)) (e4 : set_val h3 b w = (h4, b2)) :
    (a ≠ b ∧ valueEq h2 a b ∧ deref h2 a = some v) ∧
      (a2 ≠ b2 ∧ valueEq h4 a2 b2 ∧ deref h4 a2 = some w) := by
  obtain ⟨rfl, rfl⟩ := Prod.mk.injEq .. ▸ e1
  obtain ⟨rfl, rfl⟩ := Prod.mk.injEq .. ▸ e2
  obtain ⟨rfl, rfl⟩ := Prod.mk.injEq .. ▸ e3
  obtain ⟨rfl, rfl⟩ := Prod.mk.injEq .. ▸ e4
  have len1 : (heap ++ [v]).length = heap.length + 1 := by simp
  have ra : deref (heap ++ [v] ++ [v]) ⟨heap.length⟩ = some v := by
    simp only [deref]
    rw [List.getElem?_append_left (by simp)]
    simpa using List.getElem?_concat_length heap v
  have rb : deref (heap ++ [v] ++ [v]) ⟨(heap ++ [v]).length⟩ = some v := by
    simpa [deref] using List.getElem?_concat_length (heap ++ [v]) v
  refine ⟨⟨?_, ?_, ra⟩, ?_⟩
  · intro h
    have := congrArg CowArc.addr h
    simp at this
  · rw [valueEq, ra, rb]
  · set base := heap ++ [v] ++ [v] with hbase
    have ra2 : deref (base ++ [w] ++ [w]) ⟨base.length⟩ = some w := by
      simp only [deref]
      rw [List.getElem?_append_left (by simp)]
      simpa using List.getElem?_concat_length base w
    have rb2 : deref (base ++ [w] ++ [w]) ⟨(base ++ [w]).length⟩ = some w := by
      simpa [deref] using List.getElem?_concat_length (base ++ [w]) w
    refine ⟨?_, ?_, ra2⟩
    · intro h
      have := congrArg CowArc.addr h
      simp at this
    · rw [valueEq, ra2, rb2]

/-- C7 witness: two independent handles on `0`, then both mutated to
`9`, on the empty heap. -/
theorem value_eq_independent_of_identity_witness :
    (CowArc.mk 0 ≠ CowArc.mk 1 ∧ valueEq [(0 : Nat), 0] ⟨0⟩ ⟨1⟩ ∧
        deref [(0 : Nat), 0] ⟨0⟩ = some 0) ∧
      (CowArc.mk 2 ≠ CowArc.mk 3 ∧ valueEq [(0 : Nat), 0, 9, 9] ⟨2⟩ ⟨3⟩ ∧
        deref [(0 : Nat), 0, 9, 9] ⟨2⟩ = some 9) :=
  value_eq_independent_of_identity [] 0 9 [0] ⟨0⟩ [0, 0] ⟨1⟩
    [0, 0, 9] ⟨2⟩ [0, 0, 9, 9] ⟨3⟩ rfl rfl rfl rfl

/-- C8: `deref` is total and side-effect free on a valid handle: the
read leaves the heap and the handle exactly as they were, returns the
handle's current value (never `none`), and a second read right after
returns the same value from the same state. -/
theorem read_is_pure_and_total {T : Type} (heap : Heap T) (a : CowArc)
    (hval : Valid heap a) :
    read heap a = ((heap, a), deref heap a) ∧
      (deref heap a).isSome = true ∧
      (read (read heap a).1.1 (read heap a).1.2).2 = (read heap a).2 := by
  refine ⟨rfl, ?_, rfl⟩
  simp [deref, List.getElem?_eq_getElem hval]

/-- C8 witness: reading a handle on `5` is total and leaves the state
untouched. -/
theorem read_is_pure_and_total_witness :
    read [(5 : Nat)] ⟨0⟩ = (([5], ⟨0⟩), deref [(5 : Nat)] ⟨0⟩) ∧
      (deref [(5 : Nat)] ⟨0⟩).isSome = true ∧
      (read (read [(5 : Nat)] ⟨0⟩).1.1 (read [(5 : Nat)] ⟨0⟩).1.2).2 =
        (read [(5 : Nat)] ⟨0⟩).2 :=
  read_is_pure_and_total [5] ⟨0⟩ (by simp [Valid])

/-- C9: running `update_val` with a mutator that logs every value it is
handed shows the mutator is invoked exactly once, on exactly the
handle's current value — and the shared allocation itself is untouched:
after the call the old address still holds the old value. -/
theorem modify_calls_mutator_once {T : Type} (heap : Heap T) (a : CowArc)
    (g : T → T) (v : T) (hv : deref heap a = some v) :
    (update_valM heap a (loggingMutator g)).run [] =
      ((heap ++ [g v], ⟨heap.length⟩), [v]) ∧
      deref (heap ++ [g v]) a = some v := by
  constructor
  · simp only [update_valM, hv]
    rfl
  · have hlt : a.addr < heap.length :=
      (List.getElem?_eq_some.mp (by simpa [deref] using hv)).1
    simp only [deref]
    rw [List.getElem?_append_left hlt]
    exact hv

/-- C9 witness: `update_val` with logging doubles `6` and logs exactly
one invocation, on `6`; the old allocation still holds `6`. -/
theorem modify_calls_mutator_once_witness :
    (update_valM [(6 : Nat)] ⟨0⟩ (loggingMutator (· * 2))).run [] =
      (([6, 12], ⟨1⟩), [6]) ∧
      deref [(6 : Nat), 12] ⟨0⟩ = some 6 :=
  modify_calls_mutator_once [6] ⟨0⟩ (· * 2) 6 rfl

/-- C10: successive `update_val` calls compose — applying `f` then `g`
through a handle leaves it reading the same value as a single
`update_val` with `g ∘ f`, namely `g (f v)` for `v` the starting
value. -/
theorem modify_composes {T : Type} (heap : Heap T) (a : CowArc)
    (f g : T → T) (v : T) (hv : deref heap a = some v)
    (h1 : Heap T) (a1 : CowArc) (h2 : Heap T) (a2 : CowArc)
    (h3 : Heap T) (a3 : CowArc)
    (e1 : update_val heap a f = (h1, a1)) (e2 : update_val h1 a1 g = (h2, a2))
    (e3 : update_val heap a (g ∘ f) = (h3, a3)) :
    deref h2 a2 = deref h3 a3 ∧ deref h2 a2 = some (g (f v)) := by
  rw [update_val, hv] at e1 e3
  obtain ⟨rfl, rfl⟩ := Prod.mk.injEq .. ▸ e1
  obtain ⟨rfl, rfl⟩ := Prod.mk.injEq .. ▸ e3
  have hd1 : deref (heap ++ [f v]) ⟨heap.length⟩ = some (f v) := by
    simpa [deref] using List.getElem?_concat_length heap (f v)
  rw [update_val, hd1] at e2
  obtain ⟨rfl, rfl⟩ := Prod.mk.injEq .. ▸ e2
  have r2 : deref (heap ++ [f v] ++ [g (f v)]) ⟨(heap ++ [f v]).length⟩ =
      some (g (f v)) := by
    simpa [deref] using List.getElem?_concat_length (heap ++ [f v]) (g (f v))
  have r3 : deref (heap ++ [(g ∘ f) v]) ⟨heap.length⟩ = some (g (f v)) := by
    simpa [deref, Function.comp] using
      List.getElem?_concat_length heap ((g ∘ f) v)
  exact ⟨r2.trans r3.symm, r2⟩

/-- C10 witness: starting from `1`, applying `(· + 1)` then `(· * 2)`
reads the same as one composed update: `4`. -/
theorem modify_composes_witness :
    deref [(1 : Nat), 2, 4] ⟨2⟩ = deref [(1 : Nat), 4] ⟨1⟩ ∧
      deref [(1 : Nat), 2, 4] ⟨2⟩ = some 4 :=
  modify_composes [1] ⟨0⟩ (· + 1) (· * 2) 1 rfl [1, 2] ⟨1⟩ [1, 2, 4] ⟨2⟩
    [1, 4] ⟨1⟩ (by decide) (by decide) (by decide)

end CowArcVerif
